import Mathlib

/-!
Verification of the anomalydetection Falco plugin
(src/plugins/anomalydetection/src/plugin.cpp) against its natural-language
specification.  The definitions below are a shallow embedding of the plugin's
data model and of the three entry points the claims talk about: the
fingerprint extractor `extract_filterchecks_concat_profile` (with its
event-buffer fallback decoder `extract_filterchecks_evt_params_fallbacks`),
the parse path `parse_event`, the extract path `extract`, and the behavior
profile validation inside `parse_init_config`.  The Count-Min Sketch
primitive lives in `num/cms.h`, which is not part of the sources at hand, so
it is modelled from the specification's CMS contract (section 4.1).
-/

set_option autoImplicit false

namespace AnomalyDetection

/-! ## Count-Min Sketch (modelled from the spec, section 4.1) -/

/-- Maximum value of an unsigned 64-bit counter, `UINT64_MAX`. -/
def U64MAX : Nat := 2 ^ 64 - 1

/-- Saturating addition of unsigned 64-bit counters: the spec's
`saturating_add` caps the sum at `UINT64_MAX` instead of wrapping. -/
def satAdd (a b : Nat) : Nat := min (a + b) U64MAX

/-- Modelled from the spec: a deterministic per-row string hash
(`num/cms.h` is not under the sources; the spec leaves the hash family
open, requiring only determinism and a row-specific seed). -/
def cmsHash (row : Nat) (key : String) : Nat :=
  key.data.foldl (fun h c => h * 131 + c.toNat + 1) (2654435761 * (row + 1))

/-- Modelled from the spec: the Count-Min Sketch of `num/cms.h`, a `d` by `w`
table of unsigned 64-bit counters. -/
structure CMS where
  d : Nat
  w : Nat
  tbl : List (List Nat)
deriving DecidableEq

/-- Column selected for `key` in row `i`: `h_i(key) mod w`. -/
def CMS.col (c : CMS) (i : Nat) (key : String) : Nat :=
  cmsHash i key % c.w

/-- Counter stored at row `i` in the column selected for `key`. -/
def CMS.cell (c : CMS) (i : Nat) (key : String) : Nat :=
  (c.tbl.getD i []).getD (c.col i key) 0

/-- Modelled from the spec: `update(key, delta)` performs, for every row
`i`, `T[i][h_i(key) mod w] := saturating_add(T[i][h_i(key) mod w], delta)`. -/
def CMS.update (c : CMS) (key : String) (delta : Nat) : CMS :=
  { c with
    tbl := (List.range c.d).map
      (fun i => (c.tbl.getD i []).set (c.col i key) (satAdd (c.cell i key) delta)) }

/-- Modelled from the spec: `estimate(key)` returns the minimum counter over
all rows, `min_i T[i][h_i(key) mod w]`. -/
def CMS.estimate (c : CMS) (key : String) : Nat :=
  ((List.range c.d).map (fun i => c.cell i key)).foldl min U64MAX

/-- Modelled from the spec: `reset()` zeroes every counter. -/
def CMS.reset (c : CMS) : CMS :=
  { c with tbl := List.replicate c.d (List.replicate c.w 0) }

/-- Modelled from the spec: `new_with_dw(d, w)` builds a zeroed `d` by `w`
sketch. -/
def CMS.mkDW (d w : Nat) : CMS :=
  ⟨d, w, List.replicate d (List.replicate w 0)⟩

/-- A stream of `update(key, 1)` calls applied in order. -/
def applyUpdates (c : CMS) (ops : List String) : CMS :=
  ops.foldl (fun acc k => acc.update k 1) c

/-! ## Event model -/

/-- The PPME event-type codes the plugin distinguishes
(`driver/ppm_events_public.h` constants named in plugin.cpp); every other
code behaves uniformly and is collapsed into `other`. -/
inductive EventType where
  | open_x
  | accept5_x
  | accept46_x
  | creat_x
  | connect_x
  | openat_2_x
  | openat2_x
  | open_by_handle_at_x
  | execve19_x
  | execveat_x
  | clone20_x
  | clone3_x
  | other (code : Nat)
deriving DecidableEq

/-- The fd-producing event set: the event types for which `parse_event`
records a file descriptor (the eight cases of its first switch). -/
def fdProducing : EventType → Bool
  | .open_x | .accept5_x | .accept46_x | .creat_x | .connect_x
  | .openat_2_x | .openat2_x | .open_by_handle_at_x => true
  | _ => false

/-- Parameter slot holding the produced fd in `parse_event`:
slot 2 for `PPME_SOCKET_CONNECT_X`, slot 0 for the other fd-producing
types, none otherwise. -/
def fdParamSlot : EventType → Option Nat
  | .open_x | .accept5_x | .accept46_x | .creat_x
  | .openat_2_x | .openat2_x | .open_by_handle_at_x => some 0
  | .connect_x => some 2
  | _ => none

/-- A decoded event parameter.  `get_syscall_evt_param` returns raw bytes
that the callers reinterpret as `int64_t`, `uint64_t`, `uint32_t` or a
C string; the embedding keeps the typed value. -/
inductive Param where
  | pI64 (v : Int)
  | pU64 (v : Nat)
  | pU32 (v : Nat)
  | pStr (s : String)
deriving DecidableEq

/-- Reinterpret a parameter as `int64_t` (the `*(int64_t*)ptr` casts). -/
def Param.asI64 : Param → Int
  | .pI64 v => v
  | .pU64 v => if v < 2 ^ 63 then (v : Int) else (v : Int) - 2 ^ 64
  | .pU32 v => (v : Int)
  | .pStr _ => 0

/-- Reinterpret a parameter as `uint64_t`. -/
def Param.asU64 : Param → Nat
  | .pI64 v => (v % 2 ^ 64).toNat
  | .pU64 v => v
  | .pU32 v => v
  | .pStr _ => 0

/-- Reinterpret a parameter as `uint32_t`. -/
def Param.asU32 : Param → Nat
  | .pI64 v => (v % 2 ^ 32).toNat
  | .pU64 v => v % 2 ^ 32
  | .pU32 v => v
  | .pStr _ => 0

/-- Reinterpret a parameter as a null-terminated string. -/
def Param.asStr : Param → String
  | .pStr s => s
  | _ => ""

/-- An incoming syscall event: its PPME type, the thread id reported by
`evt.get_tid()`, and its parameter slots (`none` models a null
`param_pointer`). -/
structure Event where
  etype : EventType
  tid : Int
  params : List (Option Param)
deriving DecidableEq

/-- `get_syscall_evt_param(evt, n)`: the `n`-th parameter slot. -/
def getParam (e : Event) (n : Nat) : Option Param :=
  (e.params.getD n none)

/-! ## Host thread table model -/

/-- An entry of the `file_descriptors` subtable, restricted to the fields
the plugin reads (`name`, `name_raw`, `ino` read as `int64_t`, `dev`). -/
structure FdInfo where
  name : String
  nameRaw : String
  ino : Int
  dev : Nat
deriving DecidableEq

/-- A thread-table entry, restricted to the fields the plugin binds in
`init` plus the plugin's custom `lastevent_fd` field. -/
structure ThreadEntry where
  tid : Int
  ptid : Int
  pid : Int
  sid : Int
  vpid : Int
  vpgid : Int
  tty : Nat
  comm : String
  exe : String
  exepath : String
  cwd : String
  containerId : String
  exeWritable : Bool
  exeUpperLayer : Bool
  exeFromMemfd : Bool
  exeIno : Nat
  exeInoCtime : Nat
  exeInoMtime : Nat
  args : List String
  env : List String
  fds : List (Int × FdInfo)
  lasteventFd : Int
deriving DecidableEq

/-- The host thread table, keyed by `int64_t` thread id. -/
abbrev ThreadTable : Type := List (Int × ThreadEntry)

/-- `m_thread_table.get_entry(tr, tid)`; `none` models the
`falcosecurity::plugin_exception` thrown for a missing entry. -/
def lookupThread : ThreadTable → Int → Option ThreadEntry
  | [], _ => none
  | (k, e) :: rest, t => if k = t then some e else lookupThread rest t

/-- `fd_table.get_entry(tr, fd)` on a thread's `file_descriptors`
subtable; `none` models the exception for a missing fd. -/
def lookupFd : List (Int × FdInfo) → Int → Option FdInfo
  | [], _ => none
  | (k, e) :: rest, t => if k = t then some e else lookupFd rest t

/-- `m_lastevent_fd_field.write_value` on the entry keyed `tid`. -/
def writeLastFd : ThreadTable → Int → Int → ThreadTable
  | [], _, _ => []
  | (k, e) :: rest, tid, fd =>
    if k = tid then (k, { e with lasteventFd := fd }) :: rest
    else (k, e) :: writeLastFd rest tid fd

/-! ## String helpers mirroring the std::string operations used -/

/-- Test whether `pat` begins `s` (character-wise). -/
def listStartsWith : List Char → List Char → Bool
  | _, [] => true
  | [], _ :: _ => false
  | a :: as, b :: bs => a = b && listStartsWith as bs

/-- `std::string::find(pat)`: index of the first occurrence of `pat`. -/
def findSubIdx : List Char → List Char → Option Nat
  | [], pat => if pat.isEmpty then some 0 else none
  | a :: rest, pat =>
    if listStartsWith (a :: rest) pat then some 0
    else (findSubIdx rest pat).map (· + 1)

/-- `std::string::find(pat)` on strings. -/
def strFindSub (s pat : String) : Option Nat :=
  findSubIdx s.data pat.data

/-- Whether `pat` occurs in `s` (`find(pat) != npos`). -/
def containsSub (s pat : String) : Bool :=
  (strFindSub s pat).isSome

/-- `std::string::find_last_of(c)`. -/
def findLastIdx (l : List Char) (c : Char) : Option Nat :=
  (List.range l.length).foldl (fun acc i => if l.getD i ' ' = c then some i else acc) none

/-- `std::string::find_first_not_of(' ', start)`. -/
def findFirstNotSpace (l : List Char) (start : Nat) : Option Nat :=
  (List.range l.length).foldl
    (fun acc i =>
      match acc with
      | some _ => acc
      | none => if start ≤ i && !(l.getD i ' ' = ' ') then some i else none)
    none

/-- `std::string::find_last_not_of(' ')`. -/
def findLastNotSpace (l : List Char) : Option Nat :=
  (List.range l.length).foldl (fun acc i => if l.getD i ' ' = ' ' then acc else some i) none

/-- `s.substr(0, n)`. -/
def strTake (s : String) (n : Nat) : String :=
  String.mk (s.data.take n)

/-- `s.substr(n)`. -/
def strDrop (s : String) (n : Nat) : String :=
  String.mk (s.data.drop n)

/-- The `find_last_of('/')` split used by DIRECTORY / FILENAME: prefix
before the last slash for a directory, suffix after it for a filename;
the string is returned unchanged when it has no slash. -/
def splitDirFile (isDir : Bool) (s : String) : String :=
  match findLastIdx s.data '/' with
  | none => s
  | some pos => if isDir then strTake s pos else strDrop s (pos + 1)

/-- The `"->"` split of the custom FDNAME_PART1 / FDNAME_PART2 selectors:
left or right of the first `->`, and the empty string when the delimiter
is absent. -/
def splitFdNamePart (isPart1 : Bool) (s : String) : String :=
  match strFindSub s "->" with
  | none => ""
  | some pos => if isPart1 then strTake s pos else strDrop s (pos + 2)

/-- Modelled from the spec: `concatenate_paths` of plugin_utils.h (not
under the sources): a non-absolute `p` is joined onto `base` and the
result is normalized, collapsing `.` and `..` segments. -/
def concatenatePaths (base p : String) : String :=
  let joined := if p.startsWith "/" then p else base ++ "/" ++ p
  let segs := (joined.splitOn "/").filter (fun s => s ≠ "")
  let out := segs.foldl
    (fun acc s => if s = "." then acc else if s = ".." then acc.dropLast else acc ++ [s]) []
  "/" ++ String.intercalate "/" out

/-! ## Profile field selectors -/

/-- The selector kinds handled by `extract_filterchecks_concat_profile`
(the `plugin_sinsp_filterchecks::TYPE_*` cases of its switch). -/
inductive FieldId where
  | container_id
  | name
  | pname
  | aname
  | args
  | cmdnargs
  | cmdlenargs
  | cmdline
  | pcmdline
  | acmdline
  | exeline
  | exe
  | pexe
  | aexe
  | exepath
  | pexepath
  | aexepath
  | cwd
  | tty
  | pid
  | ppid
  | apid
  | vpid
  | pvpid
  | sid
  | sname
  | sid_exe
  | sid_exepath
  | vpgid
  | vpgid_name
  | vpgid_exe
  | vpgid_exepath
  | env
  | is_exe_writable
  | is_exe_upper_layer
  | is_exe_from_memfd
  | exe_ino
  | exe_ino_ctime
  | exe_ino_mtime
  | is_sid_leader
  | is_vpgid_leader
  | fdnum
  | fdname
  | directory
  | filename
  | ino
  | dev
  | fdnameraw
  | custom_aname_lineage_concat
  | custom_aexe_lineage_concat
  | custom_aexepath_lineage_concat
  | custom_fdname_part1
  | custom_fdname_part2
deriving DecidableEq

/-- A parsed profile field (`plugin_sinsp_filterchecks_field`): selector id
plus the optional numeric / string argument. -/
structure Field where
  id : FieldId
  argid : Nat
  argname : String
deriving DecidableEq

/-- The fd-dependent selectors of the fingerprint extractor: those whose
switch clears the whole accumulated profile string on a non-fd event. -/
def fdDependent : FieldId → Bool
  | .fdnum | .fdname | .directory | .filename | .ino | .dev | .fdnameraw
  | .custom_fdname_part1 | .custom_fdname_part2 => true
  | _ => false

/-- `PPM_AT_FDCWD`, the special openat dirfd meaning "current working
directory". -/
def PPM_AT_FDCWD : Int := -100

/-! ## Event-buffer fallback decoder
(`extract_filterchecks_evt_params_fallbacks`) -/

/-- `extract_filterchecks_evt_params_fallbacks(evt, field, cwd)`: decode the
selector's value directly from the event buffer.  Selectors outside the
fd family (the function's `default`) yield the empty string. -/
def extractFallbacks (evt : Event) (f : Field) (cwd : String) : String :=
  match f.id with
  | .fdnum =>
    match evt.etype with
    | .open_x | .creat_x | .openat_2_x | .openat2_x | .open_by_handle_at_x
    | .accept5_x | .accept46_x =>
      match getParam evt 0 with
      | none => ""
      | some p => toString p.asI64
    | .connect_x =>
      match getParam evt 2 with
      | none => ""
      | some p => toString p.asI64
    | _ => ""
  | .fdname | .directory | .filename =>
    match evt.etype with
    | .open_x | .creat_x =>
      match getParam evt 1 with
      | none => ""
      | some p =>
        let t := p.asStr
        if !(t.startsWith "/") then concatenatePaths cwd t else concatenatePaths "" t
    | .openat_2_x | .openat2_x =>
      match getParam evt 2 with
      | none => ""
      | some p => concatenatePaths cwd p.asStr
    | .open_by_handle_at_x =>
      match getParam evt 3 with
      | none => ""
      | some p => concatenatePaths "" p.asStr
    | _ => ""
  | .ino =>
    match evt.etype with
    | .open_x | .creat_x =>
      match getParam evt 5 with
      | none => ""
      | some p => toString p.asU64
    | .openat_2_x | .openat2_x =>
      match getParam evt 7 with
      | none => ""
      | some p => toString p.asU64
    | .open_by_handle_at_x =>
      match getParam evt 5 with
      | none => ""
      | some p => toString p.asU64
    | _ => ""
  | .dev =>
    match evt.etype with
    | .open_x | .creat_x =>
      match getParam evt 4 with
      | none => ""
      | some p => toString p.asU32
    | .openat_2_x | .openat2_x =>
      match getParam evt 6 with
      | none => ""
      | some p => toString p.asU32
    | .open_by_handle_at_x =>
      match getParam evt 4 with
      | none => ""
      | some p => toString p.asU32
    | _ => ""
  | .fdnameraw =>
    match evt.etype with
    | .open_x | .creat_x =>
      match getParam evt 1 with
      | none => ""
      | some p => p.asStr
    | .openat_2_x | .openat2_x =>
      match getParam evt 2 with
      | none => ""
      | some p => p.asStr
    | .open_by_handle_at_x =>
      match getParam evt 3 with
      | none => ""
      | some p => p.asStr
    | _ => ""
  | _ => ""

/-! ## Fingerprint extractor helpers -/

/-- The `if (!tstr.empty()) tstr += " "; tstr += arg;` accumulation used by
every argv / env join in the extractor. -/
def spaceAppend (acc a : String) : String :=
  (if acc = "" then acc else acc ++ " ") ++ a

/-- Iterate a subtable of strings, space-joining onto an initial value. -/
def argsJoin (init : String) (items : List String) : String :=
  items.foldl spaceAppend init

/-- `c += strlen(arg)` over the argv subtable (TYPE_CMDLENARGS). -/
def sumLens (l : List String) : Nat :=
  l.foldl (fun c a => c + a.length) 0

/-- `std::to_string` on a bool: `"1"` or `"0"`. -/
def boolStr (b : Bool) : String :=
  if b then "1" else "0"

/-- The ancestor walk of the `X[k]` selectors (TYPE_ANAME and friends):
starting from the current thread's `ptid` with `k` loop iterations left,
fetch the entry at `ptid`; on the last iteration read the attribute; stop
early (yielding `""`) when the fetched ancestor's tid is 1; a failed fetch
is caught and the iteration continues with the same `ptid`. -/
def ancestorAttr (tt : ThreadTable) (attr : ThreadEntry → String) : Nat → Int → String
  | 0, _ => ""
  | 1, ptid =>
    match lookupThread tt ptid with
    | some lin => attr lin
    | none => ""
  | n + 2, ptid =>
    match lookupThread tt ptid with
    | some lin => if ptid = 1 then "" else ancestorAttr tt attr (n + 1) lin.ptid
    | none => ancestorAttr tt attr (n + 1) ptid

/-- The `*_LINEAGE_CONCAT` walk: append each fetched ancestor's attribute
onto the accumulator, stopping after `k` iterations or at tid 1. -/
def lineageConcat (tt : ThreadTable) (attr : ThreadEntry → String) :
    Nat → Int → String → String
  | 0, _, acc => acc
  | n + 1, ptid, acc =>
    match lookupThread tt ptid with
    | none => lineageConcat tt attr n ptid acc
    | some lin =>
      let acc2 := acc ++ attr lin
      if n = 0 then acc2
      else if ptid = 1 then acc2
      else lineageConcat tt attr n lin.ptid acc2

/-- The session / process-group leader walk (TYPE_SNAME and friends): climb
the parent chain while the ancestor's `sid` / `vpgid` equals the current
thread's, keeping the last matching ancestor; capped at 9 or 5 hops. -/
def leaderWalk (tt : ThreadTable) (key : ThreadEntry → Int) :
    Nat → Int → Int → ThreadEntry → ThreadEntry
  | 0, _, _, leader => leader
  | n + 1, keyv, ptid, leader =>
    match lookupThread tt ptid with
    | none => leaderWalk tt key n keyv ptid leader
    | some lin =>
      if key lin ≠ keyv then leader
      else leaderWalk tt key n keyv lin.ptid lin

/-- The `KEY=VALUE` match test of TYPE_ENV with a named argument. -/
def envMatchKey (argname v : String) : Bool :=
  decide (argname.length + 1 < v.length) &&
  (v.data.getD argname.length ' ' == '=') &&
  (v.data.take argname.length == argname.data)

/-- The whitespace trim of a matched env value:
`substr(find_first_not_of(' ', nlen+1), find_last_not_of(' ') - first + 1)`.
`none` models the `std::out_of_range` thrown when the value is all
spaces (`find_first_not_of` returns `npos`). -/
def envTrim (v : String) (nlen : Nat) : Option String :=
  match findFirstNotSpace v.data (nlen + 1) with
  | none => none
  | some first =>
    let last := (findLastNotSpace v.data).getD 0
    some (String.mk ((v.data.drop first).take (last - first + 1)))

/-- Iterate the env subtable with a named key: every matching entry
overwrites the result (the lambda keeps iterating), and a trim failure
aborts with an exception. -/
def envScan (argname : String) : List String → String → Option String
  | [], acc => some acc
  | v :: rest, acc =>
    if envMatchKey argname v then
      match envTrim v argname.length with
      | none => none
      | some s => envScan argname rest s
    else envScan argname rest acc

/-- The fd-name read through the thread table: `lastevent_fd` indexes the
`file_descriptors` subtable and `name` is read; a missing entry's exception
is caught, leaving the empty string. -/
def fdNameViaTable (te : ThreadEntry) : String :=
  match lookupFd te.fds te.lasteventFd with
  | none => ""
  | some fe => fe.name

/-- As `fdNameViaTable` but reading `name_raw`. -/
def fdNameRawViaTable (te : ThreadEntry) : String :=
  match lookupFd te.fds te.lasteventFd with
  | none => ""
  | some fe => fe.nameRaw

/-- As `fdNameViaTable` but reading `ino` (into `int64_t`) and stringifying. -/
def fdInoViaTable (te : ThreadEntry) : String :=
  match lookupFd te.fds te.lasteventFd with
  | none => ""
  | some fe => toString fe.ino

/-- As `fdNameViaTable` but reading `dev` (a `uint32_t`) and stringifying. -/
def fdDevViaTable (te : ThreadEntry) : String :=
  match lookupFd te.fds te.lasteventFd with
  | none => ""
  | some fe => toString fe.dev

/-- The openat dirfd resolution used when the cached fd name is empty:
decode param 1 as the dirfd, fetch it in the fd subtable (the fetch happens
before the `PPM_AT_FDCWD` test, so a missing entry leaves `""`), then take
the thread's `cwd` for `PPM_AT_FDCWD` and the fd's name otherwise. -/
def openatDirfdBase (evt : Event) (te : ThreadEntry) : String :=
  match getParam evt 1 with
  | none => ""
  | some p =>
    let dirfd := p.asI64
    match lookupFd te.fds dirfd with
    | none => ""
    | some fe => if dirfd = PPM_AT_FDCWD then te.cwd else fe.name

/-! ## Fingerprint extractor -/

/-- The C++ exception kinds relevant to control flow:
`falcosecurity::plugin_exception` (caught by `parse_event`) and other
`std::exception`s such as `std::out_of_range`. -/
inductive CppExn where
  | plugin
  | std
deriving DecidableEq

/-- Outcome of evaluating one selector inside the extractor's loop:
a value appended to the profile string, a clear of the whole accumulated
string (fd selector on a non-fd event), or an exception escaping the
selector's case. -/
inductive FieldOut where
  | ok (s : String)
  | clear
  | exn (k : CppExn)
deriving DecidableEq

/-- The DIRECTORY / FILENAME case of the extractor switch. -/
def dirFileOut (evt : Event) (te : ThreadEntry) (f : Field) (isDir : Bool) : FieldOut :=
  match evt.etype with
  | .open_x | .creat_x =>
    .ok (splitDirFile isDir
      (let t := fdNameViaTable te
       if t = "" then extractFallbacks evt f te.cwd else t))
  | .open_by_handle_at_x =>
    .ok (splitDirFile isDir
      (let t := fdNameViaTable te
       if t = "" then extractFallbacks evt f "" else t))
  | .openat_2_x | .openat2_x =>
    .ok (splitDirFile isDir
      (let t := fdNameViaTable te
       if t = "" then extractFallbacks evt f (openatDirfdBase evt te) else t))
  | .accept5_x | .accept46_x | .connect_x => .ok ""
  | _ => .clear

/-- The CUSTOM_FDNAME_PART1 / PART2 case of the extractor switch. -/
def fdPartOut (evt : Event) (te : ThreadEntry) (f : Field) (isPart1 : Bool) : FieldOut :=
  match evt.etype with
  | .open_x | .creat_x | .openat_2_x | .openat2_x | .open_by_handle_at_x => .ok ""
  | .accept5_x | .accept46_x | .connect_x =>
    .ok (splitFdNamePart isPart1
      (let t := fdNameViaTable te
       if t = "" then extractFallbacks evt f "" else t))
  | _ => .clear

/-- One selector of `extract_filterchecks_concat_profile` when the
thread entry is present: the extractor's big switch. -/
def extractField (tt : ThreadTable) (evt : Event) (te : ThreadEntry) (f : Field) : FieldOut :=
  match f.id with
  | .container_id => .ok te.containerId
  | .name => .ok te.comm
  | .pname =>
    match lookupThread tt te.ptid with
    | none => .exn .plugin
    | some lin => .ok lin.comm
  | .aname =>
    .ok (if f.argid < 1 then te.comm
         else ancestorAttr tt (fun e => e.comm) f.argid te.ptid)
  | .args => .ok (argsJoin "" te.args)
  | .cmdnargs => .ok (toString te.args.length)
  | .cmdlenargs => .ok (toString (sumLens te.args))
  | .cmdline => .ok (argsJoin te.comm te.args)
  | .pcmdline =>
    match lookupThread tt te.ptid with
    | none => .exn .plugin
    | some lin => .ok (argsJoin lin.comm lin.args)
  | .acmdline =>
    .ok (if f.argid < 1 then argsJoin te.comm te.args
         else ancestorAttr tt (fun e => argsJoin e.comm e.args) f.argid te.ptid)
  | .exeline => .ok (argsJoin te.exe te.args)
  | .exe => .ok te.exe
  | .pexe =>
    match lookupThread tt te.ptid with
    | none => .exn .plugin
    | some lin => .ok lin.exe
  | .aexe =>
    .ok (if f.argid < 1 then te.exe
         else ancestorAttr tt (fun e => e.exe) f.argid te.ptid)
  | .exepath => .ok te.exepath
  | .pexepath =>
    match lookupThread tt te.ptid with
    | none => .exn .plugin
    | some lin => .ok lin.exepath
  | .aexepath =>
    .ok (if f.argid < 1 then te.exepath
         else ancestorAttr tt (fun e => e.exepath) f.argid te.ptid)
  | .cwd => .ok te.cwd
  | .tty => .ok (toString te.tty)
  | .pid => .ok (toString te.pid)
  | .ppid =>
    match lookupThread tt te.ptid with
    | none => .exn .plugin
    | some lin => .ok (toString lin.pid)
  | .apid =>
    .ok (if f.argid < 1 then toString te.pid
         else ancestorAttr tt (fun e => toString e.pid) f.argid te.ptid)
  | .vpid => .ok (toString te.vpid)
  | .pvpid =>
    match lookupThread tt te.ptid with
    | none => .exn .plugin
    | some lin => .ok (toString lin.vpid)
  | .sid => .ok (toString te.sid)
  | .sname => .ok (leaderWalk tt (fun e => e.sid) 9 te.sid te.ptid te).comm
  | .sid_exe => .ok (leaderWalk tt (fun e => e.sid) 9 te.sid te.ptid te).exe
  | .sid_exepath => .ok (leaderWalk tt (fun e => e.sid) 9 te.sid te.ptid te).exepath
  | .vpgid => .ok (toString te.vpgid)
  | .vpgid_name => .ok (leaderWalk tt (fun e => e.vpgid) 5 te.vpgid te.ptid te).comm
  | .vpgid_exe => .ok (leaderWalk tt (fun e => e.vpgid) 5 te.vpgid te.ptid te).exe
  | .vpgid_exepath => .ok (leaderWalk tt (fun e => e.vpgid) 5 te.vpgid te.ptid te).exepath
  | .env =>
    if f.argname ≠ "" then
      match envScan f.argname te.env "" with
      | none => .exn .std
      | some s => .ok s
    else .ok (argsJoin "" te.env)
  | .is_exe_writable => .ok (boolStr te.exeWritable)
  | .is_exe_upper_layer => .ok (boolStr te.exeUpperLayer)
  | .is_exe_from_memfd => .ok (boolStr te.exeFromMemfd)
  | .exe_ino => .ok (toString te.exeIno)
  | .exe_ino_ctime => .ok (toString te.exeInoCtime)
  | .exe_ino_mtime => .ok (toString te.exeInoMtime)
  | .is_sid_leader => .ok (boolStr (decide (te.sid = te.vpid)))
  | .is_vpgid_leader => .ok (boolStr (decide (te.vpgid = te.vpid)))
  | .fdnum =>
    match evt.etype with
    | .open_x | .accept5_x | .accept46_x | .creat_x | .connect_x
    | .openat_2_x | .openat2_x | .open_by_handle_at_x =>
      .ok (let t := toString te.lasteventFd
           if t = "" then extractFallbacks evt f "" else t)
    | _ => .clear
  | .fdname =>
    match evt.etype with
    | .accept5_x | .accept46_x | .connect_x | .open_by_handle_at_x =>
      .ok (let t := fdNameViaTable te
           if t = "" then extractFallbacks evt f "" else t)
    | .open_x | .creat_x =>
      .ok (let t := fdNameViaTable te
           if t = "" then extractFallbacks evt f te.cwd else t)
    | .openat_2_x | .openat2_x =>
      .ok (let t := fdNameViaTable te
           if t = "" then extractFallbacks evt f (openatDirfdBase evt te) else t)
    | _ => .clear
  | .directory => dirFileOut evt te f true
  | .filename => dirFileOut evt te f false
  | .ino =>
    match evt.etype with
    | .open_x | .creat_x | .openat_2_x | .openat2_x | .open_by_handle_at_x =>
      .ok (let t := fdInoViaTable te
           if t = "" then extractFallbacks evt f "" else t)
    | .accept5_x | .accept46_x | .connect_x => .ok ""
    | _ => .clear
  | .dev =>
    match evt.etype with
    | .open_x | .creat_x | .openat_2_x | .openat2_x | .open_by_handle_at_x =>
      .ok (let t := fdDevViaTable te
           if t = "" then extractFallbacks evt f "" else t)
    | .accept5_x | .accept46_x | .connect_x => .ok ""
    | _ => .clear
  | .fdnameraw =>
    match evt.etype with
    | .open_x | .creat_x | .openat_2_x | .openat2_x | .open_by_handle_at_x =>
      .ok (let t := fdNameRawViaTable te
           if t = "" then extractFallbacks evt f "" else t)
    | .accept5_x | .accept46_x | .connect_x => .ok ""
    | _ => .clear
  | .custom_aname_lineage_concat =>
    .ok (if f.argid < 1 then ""
         else lineageConcat tt (fun e => e.comm) f.argid te.ptid te.comm)
  | .custom_aexe_lineage_concat =>
    .ok (if f.argid < 1 then ""
         else lineageConcat tt (fun e => e.exe) f.argid te.ptid te.exe)
  | .custom_aexepath_lineage_concat =>
    .ok (if f.argid < 1 then ""
         else lineageConcat tt (fun e => e.exepath) f.argid te.ptid te.exepath)
  | .custom_fdname_part1 => fdPartOut evt te f true
  | .custom_fdname_part2 => fdPartOut evt te f false

/-- The extractor's per-field loop: each selector appends its value
(`behavior_profile_concat_str += tstr`), an fd selector on a non-fd event
clears the accumulator, and an uncaught exception aborts the loop. -/
def runFields (tt : ThreadTable) (evt : Event) (te : ThreadEntry) :
    List Field → String → Except CppExn String
  | [], out => .ok out
  | f :: rest, out =>
    match extractField tt evt te f with
    | .exn k => .error k
    | .ok s => runFields tt evt te rest (out ++ s)
    | .clear => runFields tt evt te rest ""

/-- `extract_filterchecks_concat_profile(evt, tr, fields, out)`: look up the
event's thread; when the lookup throws, fall back to decoding every
selector from the event buffer (with an empty base directory) and succeed;
otherwise run the per-field loop. -/
def extractConcatProfile (tt : ThreadTable) (evt : Event) (fields : List Field) :
    Except CppExn (Bool × String) :=
  match lookupThread tt evt.tid with
  | none =>
    .ok (true, fields.foldl (fun acc f => acc ++ extractFallbacks evt f "") "")
  | some te =>
    match runFields tt evt te fields "" with
    | .error k => .error k
    | .ok s => .ok (true, s)

/-! ## Plugin state, parse path and extract path -/

/-- The plugin members relevant to the parse / extract paths:
`m_count_min_sketch_enabled`, `m_n_sketches`, `m_behavior_profiles_fields`,
`m_behavior_profiles_event_codes`, `m_count_min_sketches`, plus the host
thread table. -/
structure PluginState where
  enabled : Bool
  nSketches : Nat
  profiles : List (List Field)
  eventCodes : List (List EventType)
  sketches : List CMS
  tt : ThreadTable
deriving DecidableEq

/-- Outcome of `parse_event`: a boolean returned to the host, or an
exception escaping the function. -/
inductive ParseOutcome where
  | ret (b : Bool)
  | exn (k : CppExn)
deriving DecidableEq

/-- The per-profile update loop of `parse_event`: for each behavior
profile whose event-code set contains the event's type, bail out with
`false` on a non-positive thread id, extract the fingerprint
(`plugin_exception` is caught and turns into `false`; other exceptions
escape), and update sketch `i` when the fingerprint is non-empty. -/
def parseLoop (st : PluginState) (evt : Event) :
    Nat → List (List EventType) → List CMS → List CMS × ParseOutcome
  | _, [], sks => (sks, .ret true)
  | i, set :: rest, sks =>
    if evt.etype ∈ set then
      if evt.tid ≤ 0 then (sks, .ret false)
      else if i < st.nSketches then
        match extractConcatProfile st.tt evt (st.profiles.getD i []) with
        | .error .plugin => (sks, .ret false)
        | .error .std => (sks, .exn .std)
        | .ok (b, fp) =>
          if b ∧ fp ≠ "" then
            match sks.get? i with
            | none => (sks, .exn .std)
            | some c => parseLoop st evt (i + 1) rest (sks.set i (c.update fp 1))
          else parseLoop st evt (i + 1) rest sks
      else parseLoop st evt (i + 1) rest sks
    else parseLoop st evt (i + 1) rest sks

/-- The tail of `parse_event` after the fd bookkeeping. -/
def runParseLoop (st : PluginState) (evt : Event) : PluginState × ParseOutcome :=
  let r := parseLoop st evt 0 st.eventCodes st.sketches
  ({ st with sketches := r.1 }, r.2)

/-- `parse_event`: return `true` immediately when the count-min-sketch
feature is disabled; otherwise record the produced fd (slot 0, or slot 2
for `connect`) into the thread's `lastevent_fd` (a null parameter returns
`false`; a missing thread entry throws), then run the per-profile update
loop. -/
def parseEvent (st : PluginState) (evt : Event) : PluginState × ParseOutcome :=
  if !st.enabled then (st, .ret true)
  else
    match fdParamSlot evt.etype with
    | some slot =>
      match getParam evt slot with
      | none => (st, .ret false)
      | some p =>
        match lookupThread st.tt evt.tid with
        | none => (st, .exn .plugin)
        | some _ =>
          runParseLoop { st with tt := writeLastFd st.tt evt.tid p.asI64 } evt
    | none => runParseLoop st evt

/-- Outcome of one `extract` request: `false` with `m_lasterr` set, a
successful u64 or string value, a success without a value (the extractor
returned `false`), or an escaping exception. -/
inductive ExtractOutcome where
  | fail (err : String)
  | okValue (v : Nat)
  | okStr (s : String)
  | okSkip
  | exn (k : CppExn)
deriving DecidableEq

/-- The `ANOMALYDETECTION_COUNT_MIN_SKETCH_COUNT` branch of `extract`:
reject a disabled feature or an out-of-bounds index with an error, then
compute the fingerprint and return `estimate(fingerprint)` of sketch
`index`. -/
def extractSketchCount (st : PluginState) (evt : Event) (index : Nat) : ExtractOutcome :=
  if !st.enabled then
    .fail "count_min_sketch disabled, but `anomaly.count_min_sketch` field referenced"
  else if st.nSketches ≤ index then
    .fail "sketch index out of bounds"
  else
    match extractConcatProfile st.tt evt (st.profiles.getD index []) with
    | .error k => .exn k
    | .ok (ok, fp) =>
      if ok then
        match st.sketches.get? index with
        | none => .exn .std
        | some c => .okValue (c.estimate fp)
      else .okSkip

/-- The `ANOMALYDETECTION_COUNT_MIN_SKETCH_BEHAVIOR_PROFILE_CONCAT_STR`
branch of `extract`: same guards, returning the fingerprint itself. -/
def extractSketchProfile (st : PluginState) (evt : Event) (index : Nat) : ExtractOutcome :=
  if !st.enabled then
    .fail "count_min_sketch disabled, but `anomaly.count_min_sketch` field referenced"
  else if st.nSketches ≤ index then
    .fail "sketch index out of bounds"
  else
    match extractConcatProfile st.tt evt (st.profiles.getD index []) with
    | .error k => .exn k
    | .ok (ok, fp) => if ok then .okStr fp else .okSkip

/-! ## Behavior profile validation (`parse_init_config`) -/

/-- One entry of the `behavior_profiles` config array. -/
structure ProfileCfg where
  fields : String
  eventCodes : List EventType
deriving DecidableEq

/-- `supported_codes_fd_profile` of `parse_init_config`. -/
def supportedCodesFdProfile : List EventType :=
  [.open_x, .accept5_x, .accept46_x, .creat_x, .connect_x,
   .openat_2_x, .openat2_x, .open_by_handle_at_x]

/-- `supported_codes_any_profile` of `parse_init_config`: the execve /
clone family plus the fd-producing set. -/
def supportedCodesAnyProfile : List EventType :=
  [.execveat_x, .execve19_x, .clone20_x, .clone3_x] ++ supportedCodesFdProfile

/-- How `parse_init_config` / `init` terminates: normal continuation,
`exit(code)` killing the process, or `init` returning `false`. -/
inductive InitOutcome where
  | ok
  | exitProcess (code : Nat)
  | returnFalse
deriving DecidableEq

/-- The per-profile validation of `parse_init_config`: a profile whose
fields string contains `"%fd"` with an event code outside the
fd-producing set calls `exit(1)`, as does any event code outside the
overall supported set. -/
def validateProfile (p : ProfileCfg) : InitOutcome :=
  if containsSub p.fields "%fd" &&
      p.eventCodes.any (fun c => decide (c ∉ supportedCodesFdProfile)) then
    .exitProcess 1
  else if p.eventCodes.any (fun c => decide (c ∉ supportedCodesAnyProfile)) then
    .exitProcess 1
  else .ok

/-- Validation over the whole `behavior_profiles` array: the first
violating profile terminates the process. -/
def validateProfiles : List ProfileCfg → InitOutcome
  | [] => .ok
  | p :: rest =>
    match validateProfile p with
    | .ok => validateProfiles rest
    | out => out

/-- The sketch-allocation shape check of `init` (after `parse_init_config`
returned): `rows_cols` matching `n_sketches` wins, else `gamma_eps` must
match with `rows_cols` empty, else `init` returns `false`. -/
def initShapeCheck (nSketches rowsColsLen gammaEpsLen : Nat) : InitOutcome :=
  if rowsColsLen = nSketches then .ok
  else if gammaEpsLen = nSketches && rowsColsLen = 0 then .ok
  else .returnFalse

/-! ## Concrete sample data used by witnesses and counterexamples -/

/-- A thread entry with every field at its default value. -/
def baseEntry : ThreadEntry :=
  { tid := 0, ptid := 0, pid := 0, sid := 0, vpid := 0, vpgid := 0, tty := 0,
    comm := "", exe := "", exepath := "", cwd := "", containerId := "",
    exeWritable := false, exeUpperLayer := false, exeFromMemfd := false,
    exeIno := 0, exeInoCtime := 0, exeInoMtime := 0, args := [], env := [],
    fds := [], lasteventFd := 0 }

/-! ## Shared lemmas -/

/-- Writing `lastevent_fd` and reading the same key back yields the entry
with the field replaced. -/
theorem lookupThread_writeLastFd (tt : ThreadTable) (tid fd : Int) :
    lookupThread (writeLastFd tt tid fd) tid =
      (lookupThread tt tid).map (fun e => { e with lasteventFd := fd }) := by
  induction tt with
  | nil => rfl
  | cons kv rest ih =>
    obtain ⟨k, e⟩ := kv
    by_cases hk : k = tid <;> simp [writeLastFd, lookupThread, hk, ih]

/-- `validateProfile` only ever continues or exits the process with
status 1. -/
theorem validateProfile_ok_or_exit (p : ProfileCfg) :
    validateProfile p = .ok ∨ validateProfile p = .exitProcess 1 := by
  unfold validateProfile
  split
  · exact Or.inr rfl
  · split
    · exact Or.inr rfl
    · exact Or.inl rfl

/-- With a non-positive thread id, the per-profile loop never touches the
sketch bank. -/
theorem parseLoop_fst_of_tid_nonpos (st : PluginState) (evt : Event)
    (h : evt.tid ≤ 0) (sets : List (List EventType)) :
    ∀ (i : Nat) (sks : List CMS), (parseLoop st evt i sets sks).1 = sks := by
  induction sets with
  | nil => intro i sks; rfl
  | cons set rest ih =>
    intro i sks
    by_cases hm : evt.etype ∈ set
    · simp [parseLoop, hm, if_pos h]
    · simp [parseLoop, hm, ih]

/-! ## Claim C10 -/

/-- Claim C10: if the count-min-sketch feature is disabled in the
configuration, `parse_event` returns `true` immediately and leaves the
whole plugin state (thread table, sketches) untouched; in particular no
`lastevent_fd` write ever happens while disabled. -/
theorem C10_disabled_parse_is_noop (st : PluginState) (evt : Event)
    (h : st.enabled = false) :
    parseEvent st evt = (st, .ret true) := by
  simp [parseEvent, h]

/-- Witness for C10 at a concrete disabled state and fd-producing event. -/
theorem C10_disabled_parse_is_noop_witness :
    parseEvent ⟨false, 1, [[]], [[]], [CMS.mkDW 1 1], [(7, baseEntry)]⟩
        ⟨.open_x, 7, [some (.pI64 3)]⟩ =
      (⟨false, 1, [[]], [[]], [CMS.mkDW 1 1], [(7, baseEntry)]⟩, .ret true) :=
  C10_disabled_parse_is_noop _ _ rfl

/-! ## Claim C6 -/

/-- Claim C6: after `parse_event` handles an fd-producing event for a
thread present in the thread table (with the feature enabled and the fd
parameter present), the thread's `lastevent_fd` equals the `int64_t` fd
decoded from parameter slot 2 for `SOCKET_CONNECT` and slot 0 for every
other fd-producing type — the slot assignment is `fdParamSlot`. -/
theorem C6_lastevent_fd_tracks_event_fd (st : PluginState) (evt : Event)
    (te : ThreadEntry) (slot : Nat) (fd : Int)
    (hen : st.enabled = true)
    (hslot : fdParamSlot evt.etype = some slot)
    (hparam : getParam evt slot = some (.pI64 fd))
    (hte : lookupThread st.tt evt.tid = some te) :
    lookupThread ((parseEvent st evt).1).tt evt.tid =
      some { te with lasteventFd := fd } := by
  simp only [parseEvent, hen, Bool.not_true, Bool.false_eq_true, if_false, hslot, hparam, hte,
    runParseLoop]
  rw [lookupThread_writeLastFd, hte]
  rfl

/-- Witness for C6: a concrete `connect` event carrying fd 9 in slot 2. -/
theorem C6_lastevent_fd_tracks_event_fd_witness :
    lookupThread ((parseEvent ⟨true, 0, [], [], [], [(7, baseEntry)]⟩
        ⟨.connect_x, 7, [none, none, some (.pI64 9)]⟩).1).tt 7 =
      some { baseEntry with lasteventFd := 9 } :=
  C6_lastevent_fd_tracks_event_fd _ _ baseEntry 2 9 rfl rfl rfl rfl

/-! ## Claim C5 -/

/-- Counterexample to claim C5 as stated: for the `open` event with
thread id 0 (non-positive), `parse_event` still performs the fd
bookkeeping before the tid check, overwriting the thread's
`lastevent_fd` from 7 to 3 — the event is not "skipped entirely" and
per-thread state is written. -/
theorem C5_counterexample :
    (Event.mk .open_x 0 [some (.pI64 3)]).tid ≤ 0 ∧
    lookupThread ((parseEvent
        ⟨true, 0, [], [], [], [(0, { baseEntry with lasteventFd := 7 })]⟩
        ⟨.open_x, 0, [some (.pI64 3)]⟩).1).tt 0 =
      some { baseEntry with lasteventFd := 3 } ∧
    ({ baseEntry with lasteventFd := 3 }).lasteventFd ≠
      ({ baseEntry with lasteventFd := 7 }).lasteventFd := by
  refine ⟨by decide, rfl, by decide⟩

/-- Claim C5 (amended): for events with non-positive thread id no sketch
is ever updated — the per-profile loop returns `false` before any update
— but the fd bookkeeping write to `lastevent_fd` is not suppressed, since
the tid check only happens inside the update loop. -/
theorem C5_tid_nonpos_no_sketch_update (st : PluginState) (evt : Event)
    (h : evt.tid ≤ 0) :
    ((parseEvent st evt).1).sketches = st.sketches := by
  obtain ⟨en, ns, pr, ec, sk, tt⟩ := st
  unfold parseEvent
  cases en with
  | false => rfl
  | true =>
    simp only [Bool.not_true, Bool.false_eq_true, if_false]
    cases hs : fdParamSlot evt.etype with
    | none =>
      simpa [runParseLoop] using
        parseLoop_fst_of_tid_nonpos ⟨true, ns, pr, ec, sk, tt⟩ evt h ec 0 sk
    | some slot =>
      cases hp : getParam evt slot with
      | none => simp only [hp]
      | some p =>
        cases hl : lookupThread tt evt.tid with
        | none => simp only [hp, hl]
        | some te =>
          simp only [hp, hl]
          simpa [runParseLoop] using
            parseLoop_fst_of_tid_nonpos ⟨true, ns, pr, ec, sk, writeLastFd tt evt.tid p.asI64⟩
              evt h ec 0 sk

/-- Witness for the amended C5 at a concrete tid -1 event. -/
theorem C5_tid_nonpos_no_sketch_update_witness :
    ((parseEvent ⟨true, 1, [[]], [[.execve19_x]], [CMS.mkDW 1 1], []⟩
        ⟨.execve19_x, -1, []⟩).1).sketches = [CMS.mkDW 1 1] :=
  C5_tid_nonpos_no_sketch_update _ _ (by decide)

/-! ## Claim C3 -/

/-- Claim C3 (amended): a behavior profile whose fields string contains
`"%fd"` together with an event code outside the fd-producing set makes
`parse_init_config` terminate the whole process via `exit(1)` — `init`
does not return `false` for this condition. -/
theorem C3_fd_profile_misuse_exits (l : List ProfileCfg) (p : ProfileCfg) (c : EventType)
    (hp : p ∈ l)
    (hfd : containsSub p.fields "%fd" = true)
    (hc : c ∈ p.eventCodes)
    (hnotfd : c ∉ supportedCodesFdProfile) :
    validateProfiles l = .exitProcess 1 := by
  have hpexit : validateProfile p = .exitProcess 1 := by
    have hany : p.eventCodes.any (fun c => decide (c ∉ supportedCodesFdProfile)) = true := by
      rw [List.any_eq_true]
      exact ⟨c, hc, by simpa using hnotfd⟩
    unfold validateProfile
    rw [hfd, hany]
    rfl
  induction l with
  | nil => cases hp
  | cons q rest ih =>
    cases hp with
    | head => simp [validateProfiles, hpexit]
    | tail _ hmem =>
      rcases validateProfile_ok_or_exit q with h | h <;>
        simp [validateProfiles, h, ih hmem]

/-- Witness for the amended C3 at a concrete invalid configuration. -/
theorem C3_fd_profile_misuse_exits_witness :
    validateProfiles [⟨"%proc.name %fd.name", [.execve19_x, .openat_2_x]⟩] =
      .exitProcess 1 :=
  C3_fd_profile_misuse_exits _ ⟨"%proc.name %fd.name", [.execve19_x, .openat_2_x]⟩
    .execve19_x (by decide) (by decide) (by decide) (by decide)

/-- Counterexample to claim C3 as stated: on that configuration the
outcome is `exit(1)`, not `init` returning `false`. -/
theorem C3_counterexample :
    validateProfiles [⟨"%proc.name %fd.name", [.execve19_x, .openat_2_x]⟩] =
      .exitProcess 1 ∧
    validateProfiles [⟨"%proc.name %fd.name", [.execve19_x, .openat_2_x]⟩] ≠
      .returnFalse := by
  refine ⟨by decide, by decide⟩

/-! ## String concatenation lemmas -/

/-- Shifting the initial accumulator out of a string-append fold. -/
theorem foldl_strAppend_shift (l : List String) (init : String) :
    l.foldl (fun r s => r ++ s) init = init ++ l.foldl (fun r s => r ++ s) "" := by
  induction l generalizing init with
  | nil => simp
  | cons a l ih =>
    rw [List.foldl_cons, List.foldl_cons, ih (init ++ a), ih ("" ++ a)]
    simp [String.append_assoc]

/-- `String.join` unfolds one element at a time. -/
theorem string_join_cons (s : String) (l : List String) :
    String.join (s :: l) = s ++ String.join l := by
  show l.foldl (fun r s => r ++ s) ("" ++ s) = s ++ l.foldl (fun r s => r ++ s) ""
  rw [foldl_strAppend_shift l ("" ++ s)]
  simp

/-- A join of empty strings is empty. -/
theorem string_join_all_empty (l : List String) (h : ∀ s ∈ l, s = "") :
    String.join l = "" := by
  induction l with
  | nil => rfl
  | cons a l ih =>
    rw [string_join_cons, h a (by simp), ih (fun s hs => h s (by simp [hs]))]
    rfl

/-- The fallback accumulation of the extractor's missing-thread branch is
the join of the per-selector fallbacks. -/
theorem foldl_fallback_eq_join (evt : Event) (l : List Field) (init : String) :
    l.foldl (fun acc f => acc ++ extractFallbacks evt f "") init =
      init ++ String.join (l.map (fun f => extractFallbacks evt f "")) := by
  induction l generalizing init with
  | nil => simp [String.join]
  | cons f l ih =>
    rw [List.foldl_cons, List.map_cons, string_join_cons, ih]
    simp [String.append_assoc]

/-! ## Claim C8 -/

/-- The selector kinds for which `extract_filterchecks_evt_params_fallbacks`
has a dedicated case; every other selector falls through to its `default`
and contributes nothing on the fallback path. -/
def fdFallbackHandled : FieldId → Bool
  | .fdnum | .fdname | .directory | .filename | .ino | .dev | .fdnameraw => true
  | _ => false

/-- Selectors that require thread-table data decode to the empty string on
the fallback path. -/
theorem extractFallbacks_nonfd_empty (evt : Event) (f : Field) (cwd : String)
    (h : fdFallbackHandled f.id = false) :
    extractFallbacks evt f cwd = "" := by
  obtain ⟨fid, aid, an⟩ := f
  cases fid <;> first
    | rfl
    | exact absurd h (by simp [fdFallbackHandled])

/-- Claim C8: when the event's thread id has no entry in the thread table,
fingerprint extraction still succeeds, producing exactly the join of the
per-selector event-buffer fallbacks; every selector that needs
thread-table data contributes the empty string, so a profile made only of
such selectors yields the empty fingerprint. -/
theorem C8_missing_thread_falls_back (tt : ThreadTable) (evt : Event) (fields : List Field)
    (h : lookupThread tt evt.tid = none) :
    extractConcatProfile tt evt fields =
      .ok (true, String.join (fields.map (fun f => extractFallbacks evt f ""))) ∧
    (∀ f : Field, fdFallbackHandled f.id = false → extractFallbacks evt f "" = "") ∧
    ((∀ f ∈ fields, fdFallbackHandled f.id = false) →
      extractConcatProfile tt evt fields = .ok (true, "")) := by
  have h1 : extractConcatProfile tt evt fields =
      .ok (true, String.join (fields.map (fun f => extractFallbacks evt f ""))) := by
    unfold extractConcatProfile
    rw [h, foldl_fallback_eq_join]
    simp
  refine ⟨h1, fun f hf => extractFallbacks_nonfd_empty evt f "" hf, fun hall => ?_⟩
  rw [h1, string_join_all_empty]
  intro s hs
  rw [List.mem_map] at hs
  obtain ⟨f, hf, rfl⟩ := hs
  exact extractFallbacks_nonfd_empty evt f "" (hall f hf)

/-- Witness for C8: an `openat` event whose thread id 42 is absent from
the table; the fingerprint comes from the raw parameters alone. -/
theorem C8_missing_thread_falls_back_witness :
    extractConcatProfile [] ⟨.openat_2_x, 42,
        [some (.pI64 6), some (.pI64 (-100)), some (.pStr "/tmp/f"), none]⟩
      [⟨.fdname, 0, ""⟩, ⟨.name, 0, ""⟩] =
      .ok (true, String.join ([⟨.fdname, 0, ""⟩, ⟨.name, 0, ""⟩].map
        (fun f => extractFallbacks ⟨.openat_2_x, 42,
          [some (.pI64 6), some (.pI64 (-100)), some (.pStr "/tmp/f"), none]⟩ f ""))) :=
  (C8_missing_thread_falls_back [] _ _ rfl).1

/-! ## Claim C1 -/

/-- Appending more selectors onto a successfully processed prefix resumes
the loop from the prefix's accumulated string. -/
theorem runFields_append_ok (tt : ThreadTable) (evt : Event) (te : ThreadEntry)
    (l1 l2 : List Field) (out o : String)
    (h : runFields tt evt te l1 out = .ok o) :
    runFields tt evt te (l1 ++ l2) out = runFields tt evt te l2 o := by
  induction l1 generalizing out with
  | nil =>
    simp only [runFields, Except.ok.injEq] at h
    subst h
    rfl
  | cons f rest ih =>
    simp only [List.cons_append, runFields] at h ⊢
    cases hf : extractField tt evt te f
    case ok s => rw [hf] at h; exact ih _ h
    case clear => rw [hf] at h; exact ih _ h
    case exn k => rw [hf] at h; exact Except.noConfusion h

/-- An fd-dependent selector evaluated on an event outside the
fd-producing set takes its switch's `default` branch and clears the
accumulated profile string. -/
theorem extractField_clear_of_fd_nonfd (tt : ThreadTable) (evt : Event) (te : ThreadEntry)
    (f : Field) (hfd : fdDependent f.id = true) (hnp : fdProducing evt.etype = false) :
    extractField tt evt te f = .clear := by
  obtain ⟨fid, aid, an⟩ := f
  obtain ⟨et, tid, params⟩ := evt
  cases fid <;> simp [fdDependent] at hfd <;>
    cases et <;> simp [fdProducing] at hnp <;> rfl

/-- Claim C1 (amended): an fd-dependent selector applied to an event
outside the fd-producing set clears the fingerprint accumulated so far —
discarding every earlier selector's contribution — but selectors after it
still append.  Hence the fingerprint is empty exactly when the last
fd-dependent selector has no later non-empty contribution; when it is the
profile's last selector the fingerprint is empty and the parse loop skips
the sketch update for that profile. -/
theorem C1_fd_gating_clears_prior_output (tt : ThreadTable) (evt : Event)
    (te : ThreadEntry) (fs : List Field) (f : Field) (o : String)
    (hte : lookupThread tt evt.tid = some te)
    (hfd : fdDependent f.id = true)
    (hnp : fdProducing evt.etype = false)
    (hpre : runFields tt evt te fs "" = .ok o) :
    extractConcatProfile tt evt (fs ++ [f]) = .ok (true, "") ∧
    (∀ (st : PluginState) (i : Nat) (codes : List EventType)
        (rest : List (List EventType)) (sks : List CMS),
      st.tt = tt → st.profiles.getD i [] = fs ++ [f] → i < st.nSketches →
      0 < evt.tid → evt.etype ∈ codes →
      parseLoop st evt i (codes :: rest) sks = parseLoop st evt (i + 1) rest sks) := by
  have hclear := extractField_clear_of_fd_nonfd tt evt te f hfd hnp
  have hrun : runFields tt evt te (fs ++ [f]) "" = .ok "" := by
    rw [runFields_append_ok tt evt te fs [f] "" o hpre]
    simp only [runFields]
    rw [hclear]
  have hfull : extractConcatProfile tt evt (fs ++ [f]) = .ok (true, "") := by
    simp only [extractConcatProfile, hte, hrun]
  refine ⟨hfull, fun st i codes rest sks htt hprof hi htid hmem => ?_⟩
  have hext : extractConcatProfile st.tt evt (st.profiles.getD i []) = .ok (true, "") := by
    rw [htt, hprof]
    exact hfull
  simp only [parseLoop, if_pos hmem, if_neg (not_le.mpr htid), if_pos hi, hext]
  simp

/-- Counterexample to claim C1 as stated: profile `[%fd.name, %proc.name]`
on an `execve` event — the fd selector clears the (empty) accumulator, but
the later `%proc.name` still appends, so the fingerprint is `"x"`, not the
empty string. -/
theorem C1_counterexample :
    extractConcatProfile [(5, { baseEntry with tid := 5, comm := "x" })]
        ⟨.execve19_x, 5, []⟩ [⟨.fdname, 0, ""⟩, ⟨.name, 0, ""⟩] =
      .ok (true, "x") ∧
    "x" ≠ "" := by
  refine ⟨rfl, by decide⟩

/-- Witness for the amended C1: the same profile with the fd selector
last yields the empty fingerprint. -/
theorem C1_fd_gating_clears_prior_output_witness :
    extractConcatProfile [(5, { baseEntry with tid := 5, comm := "x" })]
        ⟨.execve19_x, 5, []⟩ ([⟨.name, 0, ""⟩] ++ [⟨.fdname, 0, ""⟩]) =
      .ok (true, "") :=
  (C1_fd_gating_clears_prior_output
    [(5, { baseEntry with tid := 5, comm := "x" })] ⟨.execve19_x, 5, []⟩
    { baseEntry with tid := 5, comm := "x" } [⟨.name, 0, ""⟩] ⟨.fdname, 0, ""⟩ "x"
    rfl rfl rfl rfl).1

/-! ## Claim C4 -/

/-- Selectors whose extraction code wraps every fallible table access in
`try`/`catch`: all except the direct parent selectors (whose single
`get_entry(ptid)` is unguarded) and ENV (whose whitespace trim can throw
`std::out_of_range`). -/
def exceptionGuarded : FieldId → Bool
  | .pname | .pcmdline | .pexe | .pexepath | .ppid | .pvpid | .env => false
  | _ => true

/-- Whether a per-selector outcome is an escaping exception. -/
def isExnOut : FieldOut → Bool
  | .exn _ => true
  | _ => false

/-- A guarded selector never lets an exception escape its case. -/
theorem extractField_guarded_no_exn (tt : ThreadTable) (evt : Event) (te : ThreadEntry)
    (f : Field) (hg : exceptionGuarded f.id = true) :
    isExnOut (extractField tt evt te f) = false := by
  obtain ⟨fid, aid, an⟩ := f
  obtain ⟨et, tid, params⟩ := evt
  cases fid <;> simp [exceptionGuarded] at hg <;>
    first
      | rfl
      | (cases et <;> rfl)

/-- Running a profile made of guarded selectors always terminates with a
successful concatenation, whatever the table contents. -/
theorem runFields_ok_of_guarded (tt : ThreadTable) (evt : Event) (te : ThreadEntry) :
    ∀ (l : List Field) (out : String), (∀ f ∈ l, exceptionGuarded f.id = true) →
      ∃ s, runFields tt evt te l out = .ok s := by
  intro l
  induction l with
  | nil => intro out _; exact ⟨out, rfl⟩
  | cons f rest ih =>
    intro out hl
    have hf := extractField_guarded_no_exn tt evt te f (hl f (by simp))
    have hrest : ∀ g ∈ rest, exceptionGuarded g.id = true :=
      fun g h2 => hl g (by simp [h2])
    cases hx : extractField tt evt te f with
    | ok s =>
      obtain ⟨r, hr⟩ := ih (out ++ s) hrest
      exact ⟨r, by simp only [runFields]; rw [hx]; exact hr⟩
    | clear =>
      obtain ⟨r, hr⟩ := ih "" hrest
      exact ⟨r, by simp only [runFields]; rw [hx]; exact hr⟩
    | exn k =>
      rw [hx] at hf
      exact Bool.noConfusion hf

/-- Claim C4 (amended): for every selector other than the direct parent
selectors (PNAME, PCMDLINE, PEXE, PEXEPATH, PPID, PVPID) and the named-key
ENV trim, any exception raised while extracting the field is caught inside
that selector's case — it contributes a string (possibly empty) or the
fd-gating clear, never an escaping exception — and a profile of such
selectors is always evaluated to completion.  The direct parent selectors
perform one unguarded `get_entry(ptid)` whose exception escapes the
extractor. -/
theorem C4_exceptions_caught_for_guarded_selectors (tt : ThreadTable) (evt : Event)
    (te : ThreadEntry) (fs : List Field)
    (hg : ∀ f ∈ fs, exceptionGuarded f.id = true) :
    (∀ f ∈ fs, isExnOut (extractField tt evt te f) = false) ∧
    (∃ s, runFields tt evt te fs "" = .ok s) :=
  ⟨fun f hf => extractField_guarded_no_exn tt evt te f (hg f hf),
   runFields_ok_of_guarded tt evt te fs "" hg⟩

/-- Counterexample to claim C4 as stated: a `%proc.pname` selector whose
parent thread (ptid 99) is missing from the table throws out of the
extractor — the profile evaluation aborts with the exception instead of
contributing an empty string and continuing with `%proc.name`. -/
theorem C4_counterexample :
    extractConcatProfile [(5, { baseEntry with tid := 5, ptid := 99, comm := "c" })]
        ⟨.execve19_x, 5, []⟩ [⟨.pname, 0, ""⟩, ⟨.name, 0, ""⟩] =
      .error .plugin := rfl

/-- Witness for the amended C4 on a concrete guarded profile and an empty
thread table (so every inner lookup fails and is caught). -/
theorem C4_exceptions_caught_for_guarded_selectors_witness :
    (∀ f ∈ ([⟨.name, 0, ""⟩, ⟨.aname, 2, ""⟩, ⟨.sname, 0, ""⟩] : List Field),
      isExnOut (extractField [] ⟨.execve19_x, 5, []⟩ baseEntry f) = false) ∧
    (∃ s, runFields [] ⟨.execve19_x, 5, []⟩ baseEntry
      [⟨.name, 0, ""⟩, ⟨.aname, 2, ""⟩, ⟨.sname, 0, ""⟩] "" = .ok s) :=
  C4_exceptions_caught_for_guarded_selectors [] ⟨.execve19_x, 5, []⟩ baseEntry
    [⟨.name, 0, ""⟩, ⟨.aname, 2, ""⟩, ⟨.sname, 0, ""⟩] (by decide)

/-! ## Claim C7 -/

/-- Claim C7 (amended): an `anomaly.count_min_sketch[i]` or
`anomaly.count_min_sketch.profile[i]` request fails with an error through
the plugin's last-error channel when the feature is disabled or `i` is out
of bounds; otherwise it succeeds, returning `estimate(fp)` (resp. `fp`) —
in particular an empty fingerprint yields `estimate("")`, which is not
necessarily zero once colliding keys have been counted. -/
theorem C7_extract_request_semantics (st : PluginState) (evt : Event) (index : Nat) :
    (st.enabled = false →
      extractSketchCount st evt index =
        .fail "count_min_sketch disabled, but `anomaly.count_min_sketch` field referenced" ∧
      extractSketchProfile st evt index =
        .fail "count_min_sketch disabled, but `anomaly.count_min_sketch` field referenced") ∧
    (st.enabled = true → st.nSketches ≤ index →
      extractSketchCount st evt index = .fail "sketch index out of bounds" ∧
      extractSketchProfile st evt index = .fail "sketch index out of bounds") ∧
    (∀ (fp : String) (c : CMS), st.enabled = true → index < st.nSketches →
      extractConcatProfile st.tt evt (st.profiles.getD index []) = .ok (true, fp) →
      st.sketches.get? index = some c →
      extractSketchCount st evt index = .okValue (c.estimate fp) ∧
      extractSketchProfile st evt index = .okStr fp) := by
  refine ⟨fun hdis => ?_, fun hen hoob => ?_, fun fp c hen hin hext hsk => ?_⟩
  · constructor <;> simp [extractSketchCount, extractSketchProfile, hdis]
  · constructor <;> simp [extractSketchCount, extractSketchProfile, hen, hoob]
  · have hext2 : extractConcatProfile st.tt evt (st.profiles[index]?.getD []) =
        .ok (true, fp) := by simpa using hext
    have hsk2 : st.sketches[index]? = some c := by simpa using hsk
    constructor <;>
      simp [extractSketchCount, extractSketchProfile, hen, Nat.not_le.mpr hin, hext2, hsk2]

/-- A one-cell sketch that has counted the key `"x"` once. -/
def cmsC7 : CMS := (CMS.mkDW 1 1).update "x" 1

/-- A plugin state with that single sketch and an empty behavior profile
(so every fingerprint is empty). -/
def stC7 : PluginState := ⟨true, 1, [[]], [[]], [cmsC7], [(5, baseEntry)]⟩

/-- Counterexample to claim C7 as stated: with an empty fingerprint the
request succeeds but returns `estimate("") = 1` (the single cell was
inflated by the colliding key `"x"`), not a zero value. -/
theorem C7_counterexample :
    extractConcatProfile stC7.tt ⟨.execve19_x, 5, []⟩ (stC7.profiles.getD 0 []) =
      .ok (true, "") ∧
    extractSketchCount stC7 ⟨.execve19_x, 5, []⟩ 0 = .okValue 1 ∧
    (ExtractOutcome.okValue 1 : ExtractOutcome) ≠ .okValue 0 := by
  refine ⟨rfl, rfl, by decide⟩

/-- Witness for the amended C7 at the same concrete state. -/
theorem C7_extract_request_semantics_witness :
    extractSketchCount stC7 ⟨.execve19_x, 5, []⟩ 0 = .okValue (cmsC7.estimate "") ∧
    extractSketchProfile stC7 ⟨.execve19_x, 5, []⟩ 0 = .okStr "" :=
  (C7_extract_request_semantics stC7 ⟨.execve19_x, 5, []⟩ 0).2.2 "" cmsC7
    rfl (by decide) rfl rfl

/-! ## Claim C9 -/

/-- The five ancestor-indexed selectors and the attribute each reads from
the ancestor entry. -/
def ancestorSel : FieldId → Option (ThreadEntry → String)
  | .aname => some (fun e => e.comm)
  | .acmdline => some (fun e => argsJoin e.comm e.args)
  | .aexe => some (fun e => e.exe)
  | .aexepath => some (fun e => e.exepath)
  | .apid => some (fun e => toString e.pid)
  | _ => none

/-- Every ancestor-indexed selector evaluates to the current thread's
attribute for `argid < 1` and to the ancestor walk otherwise. -/
theorem extractField_ancestor_eq (tt : ThreadTable) (evt : Event) (te : ThreadEntry)
    (id : FieldId) (attr : ThreadEntry → String) (k : Nat) (an : String)
    (hsel : ancestorSel id = some attr) :
    extractField tt evt te ⟨id, k, an⟩ =
      .ok (if k < 1 then attr te else ancestorAttr tt attr k te.ptid) := by
  cases id <;> first
    | exact Option.noConfusion hsel
    | (injection hsel with h; subst h; rfl)

/-- With the full ancestor chain present and no intermediate ancestor
being the init process, the walk of `X[k]` reads the kth ancestor's
attribute.  `A j` is the tid fetched at iteration `j` (so `A 0` is the
current thread's `ptid`) and `E j` the entry found there. -/
theorem ancestorAttr_complete_chain (tt : ThreadTable) (attr : ThreadEntry → String) :
    ∀ (k : Nat) (A : Nat → Int) (E : Nat → ThreadEntry),
      1 ≤ k →
      (∀ j, j < k → lookupThread tt (A j) = some (E j)) →
      (∀ j, j + 1 < k → A (j + 1) = (E j).ptid) →
      (∀ j, j + 1 < k → A j ≠ 1) →
      ancestorAttr tt attr k (A 0) = attr (E (k - 1)) := by
  intro k
  induction k with
  | zero => intro A E hk _ _ _; exact absurd hk (by omega)
  | succ m ih =>
    cases m with
    | zero =>
      intro A E _ hchain _ _
      simp [ancestorAttr, hchain 0 (by omega)]
    | succ m2 =>
      intro A E _ hchain hlink hno1
      have h0 := hchain 0 (by omega)
      have hA0 : A 0 ≠ 1 := hno1 0 (by omega)
      have hstep := hlink 0 (by omega)
      simp only [ancestorAttr, h0]
      rw [if_neg hA0, ← hstep]
      have hres := ih (fun j => A (j + 1)) (fun j => E (j + 1)) (by omega)
        (fun j hj => hchain (j + 1) (by omega))
        (fun j hj => hlink (j + 1) (by omega))
        (fun j hj => hno1 (j + 1) (by omega))
      exact hres

/-- When the walk reaches the init process (tid 1) strictly before the
final iteration, it stops early and yields the empty string. -/
theorem ancestorAttr_early_stop (tt : ThreadTable) (attr : ThreadEntry → String) :
    ∀ (j0 k : Nat) (A : Nat → Int) (E : Nat → ThreadEntry),
      (∀ j, j ≤ j0 → lookupThread tt (A j) = some (E j)) →
      (∀ j, j < j0 → A (j + 1) = (E j).ptid) →
      j0 + 1 < k →
      A j0 = 1 →
      (∀ i, i < j0 → A i ≠ 1) →
      ancestorAttr tt attr k (A 0) = "" := by
  intro j0
  induction j0 with
  | zero =>
    intro k A E hchain _ hj0 h1 _
    obtain ⟨m, rfl⟩ : ∃ m, k = m + 2 := ⟨k - 2, by omega⟩
    have h0 := hchain 0 (le_refl 0)
    simp only [ancestorAttr, h0]
    rw [if_pos h1]
  | succ j ih =>
    intro k A E hchain hlink hj0 h1 hmin
    obtain ⟨m, rfl⟩ : ∃ m, k = m + 2 := ⟨k - 2, by omega⟩
    have h0 := hchain 0 (by omega)
    have hA0 : A 0 ≠ 1 := hmin 0 (by omega)
    have hstep := hlink 0 (by omega)
    simp only [ancestorAttr, h0]
    rw [if_neg hA0, ← hstep]
    exact ih (m + 1) (fun i => A (i + 1)) (fun i => E (i + 1))
      (fun i hi => hchain (i + 1) (by omega))
      (fun i hi => hlink (i + 1) (by omega))
      (by omega) h1 (fun i hi => hmin (i + 1) (by omega))

/-- Claim C9: for each ancestor selector `X[k]` (APID, ANAME, AEXE,
AEXEPATH, ACMDLINE): `k = 0` returns the current thread's attribute;
`k ≥ 1` follows `ptid` exactly `k` times and returns the kth ancestor's
attribute; and when `ptid == 1` is reached before the kth ancestor the
walk stops early and returns the empty string. -/
theorem C9_ancestor_selector_semantics (tt : ThreadTable) (evt : Event) (te : ThreadEntry)
    (id : FieldId) (attr : ThreadEntry → String) (k : Nat)
    (A : Nat → Int) (E : Nat → ThreadEntry)
    (hsel : ancestorSel id = some attr)
    (hk : 1 ≤ k)
    (hA0 : A 0 = te.ptid)
    (hchain : ∀ j, j < k → lookupThread tt (A j) = some (E j))
    (hlink : ∀ j, j + 1 < k → A (j + 1) = (E j).ptid) :
    (extractField tt evt te ⟨id, 0, ""⟩ = .ok (attr te)) ∧
    ((∀ j, j + 1 < k → A j ≠ 1) →
      extractField tt evt te ⟨id, k, ""⟩ = .ok (attr (E (k - 1)))) ∧
    (∀ j0, j0 + 1 < k → A j0 = 1 → (∀ i, i < j0 → A i ≠ 1) →
      extractField tt evt te ⟨id, k, ""⟩ = .ok "") := by
  refine ⟨?_, fun hno1 => ?_, fun j0 hj0 h1 hmin => ?_⟩
  · rw [extractField_ancestor_eq tt evt te id attr 0 "" hsel]
    simp
  · rw [extractField_ancestor_eq tt evt te id attr k "" hsel, if_neg (by omega), ← hA0,
      ancestorAttr_complete_chain tt attr k A E hk hchain hlink hno1]
  · rw [extractField_ancestor_eq tt evt te id attr k "" hsel, if_neg (by omega), ← hA0,
      ancestorAttr_early_stop tt attr j0 k A E
        (fun j hj => hchain j (by omega)) (fun j hj => hlink j (by omega)) hj0 h1 hmin]

/-- The current thread of the C9 witness: parent chain 5 → 10 → 20 → 1. -/
def teW9 : ThreadEntry := { baseEntry with tid := 5, ptid := 10, comm := "self" }

/-- First ancestor of the C9 witness chain. -/
def e10 : ThreadEntry := { baseEntry with tid := 10, ptid := 20, comm := "p1" }

/-- Second ancestor of the C9 witness chain, itself a child of init. -/
def e20 : ThreadEntry := { baseEntry with tid := 20, ptid := 1, comm := "p2" }

/-- The C9 witness thread table. -/
def ttW9 : ThreadTable := [(5, teW9), (10, e10), (20, e20)]

/-- Witness for C9: `%proc.aname[0]` gives the thread's own comm and
`%proc.aname[2]` gives the grandparent's comm on the concrete chain. -/
theorem C9_ancestor_selector_semantics_witness :
    extractField ttW9 ⟨.execve19_x, 5, []⟩ teW9 ⟨.aname, 0, ""⟩ = .ok "self" ∧
    extractField ttW9 ⟨.execve19_x, 5, []⟩ teW9 ⟨.aname, 2, ""⟩ = .ok "p2" :=
  have h := C9_ancestor_selector_semantics ttW9 ⟨.execve19_x, 5, []⟩ teW9 .aname
    (fun e => e.comm) 2 (fun j => if j = 0 then 10 else 20)
    (fun j => if j = 0 then e10 else e20) rfl (by omega) (by decide)
    (by intro j hj; interval_cases j <;> decide)
    (by intro j hj; have hj0 : j = 0 := (by omega); subst hj0; decide)
  ⟨h.1, h.2.1 (by intro j hj; have hj0 : j = 0 := (by omega); subst hj0; decide)⟩

/-! ## Claim C2 -/

/-- Well-formedness of a sketch: positive width, `d` rows each of width
`w`, every counter within the u64 range. -/
def CMS.wfB (c : CMS) : Prop :=
  1 ≤ c.w ∧ c.tbl.length = c.d ∧ (∀ r ∈ c.tbl, r.length = c.w) ∧
    (∀ r ∈ c.tbl, ∀ x ∈ r, x ≤ U64MAX)

/-- An in-range `getD` is a member of the list. -/
theorem getD_mem_of_lt (l : List (List Nat)) (i : Nat) (hi : i < l.length) :
    l.getD i [] ∈ l := by
  rw [List.getD_eq_getElem?_getD, List.getElem?_eq_getElem hi]
  exact List.getElem_mem hi

/-- `set` then `getD` at the same in-range position yields the new value. -/
theorem getD_set_self (l : List Nat) (p v : Nat) (hp : p < l.length) :
    (l.set p v).getD p 0 = v := by
  induction l generalizing p with
  | nil => simp at hp
  | cons a l ih =>
    cases p with
    | zero => rfl
    | succ p => simpa using ih p (by simpa using hp)

/-- `set` leaves other positions unchanged. -/
theorem getD_set_ne (l : List Nat) (p q v : Nat) (hne : p ≠ q) :
    (l.set p v).getD q 0 = l.getD q 0 := by
  induction l generalizing p q with
  | nil => rfl
  | cons a l ih =>
    cases p with
    | zero =>
      cases q with
      | zero => exact absurd rfl hne
      | succ q => rfl
    | succ p =>
      cases q with
      | zero => rfl
      | succ q => simpa using ih p q (by omega)

/-- A `getD` with default 0 on a list of bounded entries is bounded. -/
theorem getD_le_max (l : List Nat) (n : Nat) (hall : ∀ x ∈ l, x ≤ U64MAX) :
    l.getD n 0 ≤ U64MAX := by
  induction l generalizing n with
  | nil => exact Nat.zero_le _
  | cons a l ih =>
    cases n with
    | zero => exact hall a (by simp)
    | succ n => exact ih n (fun x hx => hall x (by simp [hx]))

/-- Row `i` of an updated sketch is the old row with the key's column
saturating-incremented. -/
theorem update_row (c : CMS) (key : String) (δ i : Nat) (hi : i < c.d) :
    (c.update key δ).tbl.getD i [] =
      (c.tbl.getD i []).set (c.col i key) (satAdd (c.cell i key) δ) := by
  unfold CMS.update
  rw [List.getD_eq_getElem?_getD, List.getElem?_map, List.getElem?_range hi]
  rfl

/-- The cell lemma for `update`: the tracked cell either receives a
saturating increment (same column) or is untouched. -/
theorem cell_update (c : CMS) (k1 k2 : String) (δ i : Nat) (hi : i < c.d)
    (hrow : (c.tbl.getD i []).length = c.w) (hw : 1 ≤ c.w) :
    (c.update k2 δ).cell i k1 =
      if c.col i k2 = c.col i k1 then satAdd (c.cell i k2) δ else c.cell i k1 := by
  have hcol : (c.update k2 δ).col i k1 = c.col i k1 := rfl
  unfold CMS.cell
  rw [hcol, update_row c k2 δ i hi]
  by_cases hc : c.col i k2 = c.col i k1
  · rw [if_pos hc, ← hc]
    rw [getD_set_self _ _ _ (by rw [hrow]; exact Nat.mod_lt _ hw)]
    rfl
  · rw [if_neg hc]
    exact getD_set_ne _ _ _ _ hc

/-- `update` preserves well-formedness. -/
theorem wfB_update (c : CMS) (key : String) (δ : Nat) (h : c.wfB) :
    (c.update key δ).wfB := by
  obtain ⟨hw, hlen, hrows, hbound⟩ := h
  refine ⟨hw, by simp [CMS.update], ?_, ?_⟩
  · intro r hr
    simp only [CMS.update, List.mem_map, List.mem_range] at hr
    obtain ⟨i, hi, rfl⟩ := hr
    rw [List.length_set]
    exact hrows _ (getD_mem_of_lt c.tbl i (by rw [hlen]; exact hi))
  · intro r hr x hx
    simp only [CMS.update, List.mem_map, List.mem_range] at hr
    obtain ⟨i, hi, rfl⟩ := hr
    rcases List.mem_or_eq_of_mem_set hx with hmem | rfl
    · exact hbound _ (getD_mem_of_lt c.tbl i (by rw [hlen]; exact hi)) _ hmem
    · exact min_le_right _ _

/-- Every cell of a well-formed sketch is within the u64 range. -/
theorem cell_le_max (c : CMS) (h : c.wfB) (i : Nat) (key : String) :
    c.cell i key ≤ U64MAX := by
  obtain ⟨hw, hlen, hrows, hbound⟩ := h
  unfold CMS.cell
  by_cases hi : i < c.tbl.length
  · exact getD_le_max _ _ (hbound _ (getD_mem_of_lt c.tbl i hi))
  · rw [show c.tbl.getD i [] = [] from List.getD_eq_default _ _ (by omega)]
    exact Nat.zero_le _

/-- The invariant behind the overestimate property: each tracked cell
dominates its own saturating count. -/
theorem cell_applyUpdates_ge (k : String) :
    ∀ (ops : List String) (c : CMS), c.wfB → ∀ i, i < c.d →
      min (c.cell i k + ops.count k) U64MAX ≤ (applyUpdates c ops).cell i k := by
  intro ops
  induction ops with
  | nil =>
    intro c _ i _
    have h1 : min (c.cell i k + ([] : List String).count k) U64MAX ≤ c.cell i k := by
      simp [min_le_left]
    exact h1
  | cons op rest ih =>
    intro c hwf i hi
    have hwf2 := wfB_update c op 1 hwf
    have hrow : (c.tbl.getD i []).length = c.w :=
      hwf.2.2.1 _ (getD_mem_of_lt c.tbl i (by rw [hwf.2.1]; exact hi))
    have hcell := cell_update c k op 1 i hi hrow hwf.1
    have hbk := cell_le_max c hwf i k
    have happ : applyUpdates c (op :: rest) = applyUpdates (c.update op 1) rest := rfl
    have IH := ih (c.update op 1) hwf2 i hi
    rw [happ]
    refine le_trans ?_ IH
    rw [hcell]
    by_cases hop : op = k
    · subst hop
      rw [if_pos rfl, List.count_cons_self]
      simp only [satAdd]
      rw [Nat.min_def, Nat.min_def, Nat.min_def]
      split_ifs <;> omega
    · have hcnt : (op :: rest).count k = rest.count k := by
        simp [List.count_cons, hop]
      rw [hcnt]
      by_cases hc : c.col i op = c.col i k
      · have hsame : c.cell i op = c.cell i k := by
          unfold CMS.cell
          rw [hc]
        rw [if_pos hc, hsame]
        simp only [satAdd]
        rw [Nat.min_def, Nat.min_def, Nat.min_def]
        split_ifs <;> omega
      · rw [if_neg hc]

/-- A fold of `min` stays above any common lower bound. -/
theorem foldl_min_ge (B : Nat) (l : List Nat) :
    ∀ (init : Nat), B ≤ init → (∀ x ∈ l, B ≤ x) → B ≤ l.foldl min init := by
  induction l with
  | nil => intro init h _; exact h
  | cons a l ih =>
    intro init h hall
    exact ih (min init a) (le_min h (hall a (by simp)))
      (fun x hx => hall x (by simp [hx]))

/-- `estimate` dominates any bound satisfied by every row's cell. -/
theorem estimate_ge_bound (c : CMS) (key : String) (B : Nat) (hB : B ≤ U64MAX)
    (h : ∀ i, i < c.d → B ≤ c.cell i key) :
    B ≤ c.estimate key := by
  unfold CMS.estimate
  apply foldl_min_ge B _ U64MAX hB
  intro x hx
  simp only [List.mem_map, List.mem_range] at hx
  obtain ⟨i, hi, rfl⟩ := hx
  exact h i hi

/-- `getD` on a replicated list below its length. -/
theorem getD_replicate_lt (x : List Nat) :
    ∀ (n i : Nat), i < n → (List.replicate n x).getD i [] = x := by
  intro n
  induction n with
  | zero => intro i h; omega
  | succ n ih =>
    intro i h
    cases i with
    | zero => rfl
    | succ i => exact ih i (by omega)

/-- `getD` with default 0 on a replicated zero row is always zero. -/
theorem getD_replicate_zero : ∀ (n j : Nat), (List.replicate n (0 : Nat)).getD j 0 = 0 := by
  intro n
  induction n with
  | zero => intro j; rfl
  | succ n ih =>
    intro j
    cases j with
    | zero => rfl
    | succ j => exact ih j

/-- After a reset every cell reads zero. -/
theorem reset_cell_zero (c : CMS) (i : Nat) (key : String) :
    (CMS.reset c).cell i key = 0 := by
  have htbl : (CMS.reset c).tbl = List.replicate c.d (List.replicate c.w 0) := rfl
  unfold CMS.cell
  rw [htbl]
  by_cases hi : i < c.d
  · rw [getD_replicate_lt (List.replicate c.w 0) c.d i hi]
    exact getD_replicate_zero _ _
  · rw [show (List.replicate c.d (List.replicate c.w 0)).getD i [] = [] from
      List.getD_eq_default _ _ (by simp only [List.length_replicate]; omega)]
    rfl

/-- A reset sketch of positive width is well-formed. -/
theorem wfB_reset (c : CMS) (hw : 1 ≤ c.w) : (CMS.reset c).wfB := by
  refine ⟨hw, by simp [CMS.reset], ?_, ?_⟩
  · intro r hr
    rw [List.eq_of_mem_replicate hr]
    simp [CMS.reset]
  · intro r hr x hx
    rw [List.eq_of_mem_replicate hr] at hx
    rw [List.eq_of_mem_replicate hx]
    exact Nat.zero_le _

/-- `applyUpdates` never changes the sketch shape. -/
theorem applyUpdates_d (ops : List String) :
    ∀ (c : CMS), (applyUpdates c ops).d = c.d := by
  induction ops with
  | nil => intro c; rfl
  | cons op rest ih => intro c; exact ih (c.update op 1)

/-- Claim C2 (amended): between resets, a sketch's estimate of any key
dominates the number of `update(key, 1)` calls applied since the reset,
up to the `UINT64_MAX` saturation ceiling of the counters. -/
theorem C2_estimate_dominates_count (c : CMS) (ops : List String) (key : String)
    (_hd : 1 ≤ c.d) (hw : 1 ≤ c.w) :
    min (ops.count key) U64MAX ≤ (applyUpdates (CMS.reset c) ops).estimate key := by
  have hwf : (CMS.reset c).wfB := wfB_reset c hw
  have hcells := cell_applyUpdates_ge key ops (CMS.reset c) hwf
  apply estimate_ge_bound
  · exact min_le_right _ _
  · intro i hi
    rw [applyUpdates_d ops (CMS.reset c)] at hi
    have hc := hcells i hi
    rw [reset_cell_zero c i key] at hc
    simpa using hc

/-- Witness for the amended C2 at a concrete 2-by-4 sketch and a stream
with two updates of the key. -/
theorem C2_estimate_dominates_count_witness :
    min ((["a", "k", "k"] : List String).count "k") U64MAX ≤
      (applyUpdates (CMS.reset (CMS.mkDW 2 4)) ["a", "k", "k"]).estimate "k" :=
  C2_estimate_dominates_count (CMS.mkDW 2 4) ["a", "k", "k"] "k" (by decide) (by decide)

/-- Applying `n` updates of the same key to a one-cell sketch saturates at
`UINT64_MAX`. -/
theorem applyUpdates_single_cell (s : String) :
    ∀ (n v : Nat), v ≤ U64MAX →
      applyUpdates ⟨1, 1, [[v]]⟩ (List.replicate n s) =
        ⟨1, 1, [[min (v + n) U64MAX]]⟩ := by
  intro n
  induction n with
  | zero =>
    intro v hv
    simp [applyUpdates, Nat.min_eq_left hv]
  | succ n ih =>
    intro v hv
    have hstep : (⟨1, 1, [[v]]⟩ : CMS).update s 1 = ⟨1, 1, [[satAdd v 1]]⟩ := by
      simp [CMS.update, CMS.col, CMS.cell, Nat.mod_one, List.range_succ]
    have hrepl : List.replicate (n + 1) s = s :: List.replicate n s := rfl
    rw [hrepl]
    have happ : applyUpdates (⟨1, 1, [[v]]⟩ : CMS) (s :: List.replicate n s) =
        applyUpdates ((⟨1, 1, [[v]]⟩ : CMS).update s 1) (List.replicate n s) := rfl
    rw [happ, hstep, ih (satAdd v 1) (min_le_right _ _)]
    have harith : min (satAdd v 1 + n) U64MAX = min (v + (n + 1)) U64MAX := by
      simp only [satAdd]
      rw [Nat.min_def, Nat.min_def, Nat.min_def]
      split_ifs <;> omega
    rw [harith]

/-- Counterexample to claim C2 as stated: after `2^64` updates of a key
on a freshly reset one-cell sketch, the saturating counters cap at
`2^64 - 1`, so the estimate is strictly below the true count. -/
theorem C2_counterexample :
    (List.replicate (2 ^ 64) "k").count "k" = 2 ^ 64 ∧
    (applyUpdates (CMS.reset ⟨1, 1, [[0]]⟩) (List.replicate (2 ^ 64) "k")).estimate "k" <
      (List.replicate (2 ^ 64) "k").count "k" := by
  have hcount : (List.replicate (2 ^ 64) "k").count "k" = 2 ^ 64 :=
    List.count_replicate_self _ _
  have hreset : CMS.reset ⟨1, 1, [[0]]⟩ = ⟨1, 1, [[0]]⟩ := rfl
  have happ := applyUpdates_single_cell "k" (2 ^ 64) 0 (Nat.zero_le _)
  refine ⟨hcount, ?_⟩
  rw [hcount, hreset, happ]
  have hmin : min (0 + 2 ^ 64) U64MAX = U64MAX := by
    rw [Nat.min_def]
    have : ¬ (0 + 2 ^ 64 ≤ U64MAX) := by
      simp only [U64MAX]
      omega
    rw [if_neg this]
  rw [hmin]
  have hest : (⟨1, 1, [[U64MAX]]⟩ : CMS).estimate "k" = U64MAX := by
    simp [CMS.estimate, CMS.cell, CMS.col, Nat.mod_one, List.range_succ]
  rw [hest]
  exact Nat.sub_lt (Nat.two_pow_pos 64) Nat.one_pos

end AnomalyDetection
